import Mathlib

/-!
# Verification of `threadpool.hpp` (simonakesson/threadpool)

Shallow embedding of the fixed-size worker thread pool in `src/threadpool.hpp`.

The pool's shared state (`m_tasks`, `m_idle_count`, `m_stop`) is only ever
read or written while `m_mutex` is held, so the concurrent executions of the
C++ program are faithfully modelled as an interleaving transition system
whose atomic steps are exactly the critical sections of the source:

* `ThreadPool::push` (lines 31-34): lock, append the wrapped task to the
  back of `m_tasks`, unlock, `notify_one`.
* `ThreadPool::join` (lines 39-42): lock, `m_stop = true`, unlock,
  `notify_all`; then join each `std::thread` (modelled separately below,
  since joining happens without the pool lock).
* `ThreadPool::work` (lines 58-80): one loop iteration is, under the lock:
  `++m_idle_count`, possibly `notify_one` on `m_idle_cv`, then
  `m_task_cv.wait(lock, pred)` with `pred = !m_tasks.empty() || m_stop`.
  `std::condition_variable::wait` with a predicate re-evaluates the
  predicate on every wakeup and only proceeds while holding the lock with
  the predicate true; while blocked, the lock is released.  After waking,
  `--m_idle_count`, and then either return (when `m_stop && m_tasks.empty()`)
  or pop the front task, unlock, `notify_one`, and run the task.
* `ThreadPool::wait` (lines 51-55): `m_idle_cv.wait(lock, pred)` with
  `pred = m_tasks.empty() && m_idle_count == m_threads.size()`, again
  re-evaluated under the lock on every wakeup.

IMPORTANT modelling point, taken directly from the source: the member
`size_t m_idle_count;` (line 86) has no default member initializer and the
constructor (lines 14-19) never assigns it, so after construction it holds
an indeterminate value.  The model therefore takes the constructor's
resulting idle count as a parameter `idle0 : Nat`: every `idle0` is a
possible post-construction value.  (`m_stop` by contrast is initialized to
`false` at its declaration, line 87.)

Task bodies are opaque caller logic that either produces a value or raises
a failure; we model the outcome as a tagged value with abstract `Nat`
payloads.  `std::packaged_task::operator()` stores that outcome (value or
caught exception) into the shared state of the `std::future` obtained at
`push` time; the ghost field `results` records those fulfilled shared
states by task id.
-/

namespace ThreadPoolModel

/-- Outcome of running a task's own logic: a returned value or a raised
failure (a thrown exception), with opaque payloads. -/
inductive Outcome where
  | val (v : Nat)
  | fail (e : Nat)
deriving DecidableEq, Repr

/-- A submitted task: an identifier (standing for the `std::future` handle
returned by `push`) together with the outcome its body produces when run. -/
structure Task where
  id : Nat
  body : Outcome
deriving DecidableEq, Repr

/-- The position of one worker thread inside `ThreadPool::work`. -/
inductive Phase where
  | running              -- at the top of the loop (or just spawned), lock not held
  | waiting              -- has incremented `m_idle_count`, blocked in `m_task_cv.wait`
  | executing (t : Task) -- has popped `t`, released the lock, running `task()` (line 78)
  | done                 -- returned from `work()` (line 71)
deriving DecidableEq, Repr

/-- The pool's shared state at a point where the lock is free, plus ghost
specification fields (`submitted`, `execLog`, `results`) that the C++ code
does not store but that record its observable history. -/
structure PoolState where
  tasks : List Task              -- `m_tasks`, front of the queue at the head
  idle : Nat                     -- `m_idle_count`
  stop : Bool                    -- `m_stop`
  workers : List Phase           -- one entry per thread in `m_threads`
  submitted : List Task          -- ghost: every task ever pushed, in push order
  execLog : List Task            -- ghost: tasks in the order workers dequeued them
  results : Nat → Option Outcome -- ghost: fulfilled future shared-states, by task id

/-- `ThreadPool::ThreadPool(n)` (lines 14-19): spawns `n` workers (each at
the top of `work()`), leaves `m_tasks` empty and `m_stop = false`
(line 87), and leaves `m_idle_count` at whatever indeterminate value
`idle0` the uninitialized member happens to hold (line 86: no initializer,
and the constructor body never assigns it). -/
def initState (n idle0 : Nat) : PoolState :=
  { tasks := []
    idle := idle0
    stop := false
    workers := List.replicate n Phase.running
    submitted := []
    execLog := []
    results := fun _ => none }

/-- `ThreadPool::push` (lines 21-36), at the level of the pool state: the
wrapped task is appended to the back of `m_tasks` under the lock.  The
source checks nothing before enqueuing — in particular it never reads
`m_stop` — so this function is total and ignores `s.stop`. -/
def pushTask (s : PoolState) (t : Task) : PoolState :=
  { s with tasks := s.tasks ++ [t], submitted := s.submitted ++ [t] }

/-- `m_stop = true` inside `ThreadPool::join` (lines 39-42). -/
def setStop (s : PoolState) : PoolState :=
  { s with stop := true }

/-- The effect on the pool state of worker `i` completing `task()` at
line 78: the `std::packaged_task` fulfills the future's shared state with
the body's outcome (a value, or the exception it caught), and the worker
is back at the top of the loop. -/
def finishTask (s : PoolState) (i : Nat) (t : Task) : PoolState :=
  { s with workers := s.workers.set i Phase.running,
           results := fun j => if j = t.id then some t.body else s.results j }

/-- One atomic critical section of one participant, as an interleaving
step.  Worker steps follow `ThreadPool::work` (lines 58-80); see the file
header for the correspondence. -/
inductive Step : PoolState → PoolState → Prop where
  /-- A submitter runs `push` (lines 31-34). -/
  | push (s : PoolState) (t : Task) :
      Step s (pushTask s t)
  /-- A `join` caller sets `m_stop` under the lock (lines 39-41). -/
  | setStop (s : PoolState) :
      Step s (setStop s)
  /-- Worker `i` at the loop top: `++m_idle_count` (line 62); the wait
  predicate `!m_tasks.empty() || m_stop` (line 66) is false, so it blocks
  in `m_task_cv.wait`, releasing the lock. -/
  | goIdle (s : PoolState) (i : Nat)
      (hw : s.workers[i]? = some Phase.running)
      (hq : s.tasks = []) (hs : s.stop = false) :
      Step s { s with idle := s.idle + 1, workers := s.workers.set i Phase.waiting }
  /-- Worker `i` at the loop top with the wait predicate already true and
  `m_stop && m_tasks.empty()` (line 69): `++m_idle_count` then
  `--m_idle_count` net to no change, and the worker returns (line 71). -/
  | exitNow (s : PoolState) (i : Nat)
      (hw : s.workers[i]? = some Phase.running)
      (hs : s.stop = true) (hq : s.tasks = []) :
      Step s { s with workers := s.workers.set i Phase.done }
  /-- Worker `i` at the loop top with the queue non-empty: the idle count
  nets to no change, the front task is popped (lines 74-75), the lock is
  released and the worker runs the task (line 78). -/
  | takeNow (s : PoolState) (i : Nat) (t : Task) (rest : List Task)
      (hw : s.workers[i]? = some Phase.running)
      (hq : s.tasks = t :: rest) :
      Step s { s with tasks := rest,
                      workers := s.workers.set i (Phase.executing t),
                      execLog := s.execLog ++ [t] }
  /-- Worker `i` blocked in `m_task_cv.wait` wakes with the predicate true
  (line 66 re-checks it under the lock), `--m_idle_count` (line 67), and
  `m_stop && m_tasks.empty()` holds: it returns (lines 69-71). -/
  | wakeExit (s : PoolState) (i : Nat)
      (hw : s.workers[i]? = some Phase.waiting)
      (hs : s.stop = true) (hq : s.tasks = []) :
      Step s { s with idle := s.idle - 1, workers := s.workers.set i Phase.done }
  /-- Worker `i` blocked in `m_task_cv.wait` wakes with the queue
  non-empty, `--m_idle_count`, pops the front task and runs it
  (lines 66-78).  `m_stop` is not consulted when the queue is non-empty. -/
  | wakeTake (s : PoolState) (i : Nat) (t : Task) (rest : List Task)
      (hw : s.workers[i]? = some Phase.waiting)
      (hq : s.tasks = t :: rest) :
      Step s { s with idle := s.idle - 1, tasks := rest,
                      workers := s.workers.set i (Phase.executing t),
                      execLog := s.execLog ++ [t] }
  /-- Worker `i` finishes running its task (line 78): the
  `std::packaged_task` stores the body's outcome — return value or caught
  exception alike — into the future's shared state, and the worker loops
  back to the top (line 59) regardless of that outcome. -/
  | finish (s : PoolState) (i : Nat) (t : Task)
      (hw : s.workers[i]? = some (Phase.executing t)) :
      Step s (finishTask s i t)

/-- Zero or more interleaving steps. -/
inductive Reach : PoolState → PoolState → Prop where
  | refl (s : PoolState) : Reach s s
  | tail {a b c : PoolState} : Reach a b → Step b c → Reach a c

/-- The predicate of `ThreadPool::wait` (line 53):
`m_tasks.empty() && m_idle_count == m_threads.size()`.
`m_idle_cv.wait(lock, ...)` re-evaluates it under the lock on every wakeup
and lets `wait()` return exactly when it holds. -/
def waitReturns (s : PoolState) : Prop :=
  s.tasks = [] ∧ s.idle = s.workers.length

instance (s : PoolState) : Decidable (waitReturns s) := by
  unfold waitReturns; infer_instance

/-- All workers have returned from `work()` — the situation after a
completed `join()`. -/
def AllDone (ws : List Phase) : Prop :=
  ∀ ph ∈ ws, ph = Phase.done

instance (ws : List Phase) : Decidable (AllDone ws) := by
  unfold AllDone; infer_instance

/-! ## The `join` path (`ThreadPool::join`, lines 38-46)

`join` sets `m_stop` under the lock, wakes all workers, and then calls
`t.join()` on every `std::thread` in `m_threads`.  Per the C++ standard,
`std::thread::join` throws `std::system_error` (error condition
`invalid_argument`) when the thread is not joinable — in particular when
it has already been joined.  A successfully joined thread becomes
non-joinable.  The vector `m_threads` is never cleared, so a second call
to `join()` iterates over the same, now non-joinable, threads. -/

/-- One `std::thread` of `m_threads`, abstracted to its joinability. -/
structure OSThread where
  joinable : Bool
deriving DecidableEq, Repr

/-- `std::thread::join`: blocks until the thread finishes and makes it
non-joinable; throws `std::system_error` when the thread is not
joinable (e.g. already joined). -/
def threadJoin (t : OSThread) : Except String OSThread :=
  if t.joinable then Except.ok { joinable := false }
  else Except.error "std::system_error: invalid_argument"

/-- The loop `for (std::thread& t : m_threads) t.join();` (lines 43-45):
an uncaught exception from any `t.join()` propagates out immediately. -/
def joinAllThreads : List OSThread → Except String (List OSThread)
  | [] => Except.ok []
  | t :: ts =>
    match threadJoin t with
    | Except.error e => Except.error e
    | Except.ok t' =>
      match joinAllThreads ts with
      | Except.error e => Except.error e
      | Except.ok ts' => Except.ok (t' :: ts')

/-- The state `join()` reads and writes: `m_stop` and the threads of
`m_threads` (with their joinability). -/
structure JoinState where
  stop : Bool
  threads : List OSThread
deriving DecidableEq, Repr

/-- `ThreadPool::join` (lines 38-46): set `m_stop = true`, notify, then
join every thread in order; returns the updated state, or the exception
thrown by the first `t.join()` on a non-joinable thread. -/
def poolJoin (st : JoinState) : Except String JoinState :=
  match joinAllThreads st.threads with
  | Except.error e => Except.error e
  | Except.ok ts => Except.ok { stop := true, threads := ts }

/-! ## The `push` pipeline (`ThreadPool::push`, lines 21-36, and line 78)

`push(f, args...)` itself binds the arguments: line 24 forms
`f_bound = std::bind(std::forward<F>(f), std::forward<Args>(args)...)`, a
nullary callable; line 25 wraps it in a `std::packaged_task`; line 26
obtains the `std::future`; running the queued void wrapper (line 30,
invoked by a worker at line 78) fulfills that future with the bound
call's result. -/

/-- Line 24, for a unary callable: `std::bind(f, a)` is the nullary
callable that, when invoked, computes `f a`.  `a` is captured at
submission time. -/
def bindArgs {α β : Type} (f : α → β) (a : α) : Unit → β :=
  fun _ => f a

/-- Line 24, for a binary callable: `std::bind(f, a, b)`. -/
def bindArgs2 {α β γ : Type} (f : α → β → γ) (a : α) (b : β) : Unit → γ :=
  fun _ => f a b

/-- Line 25: `std::packaged_task<return_type()>` wrapping a nullary
callable. -/
structure PackagedTask (β : Type) where
  run : Unit → β

/-- Line 25: construction of the packaged task from the bound callable. -/
def mkPackagedTask {β : Type} (g : Unit → β) : PackagedTask β :=
  { run := g }

/-- Lines 30 and 78: the queued `void_wrapper` invokes the packaged task,
which fulfills the future's shared state with the callable's result. -/
def runVoidWrapper {β : Type} (p : PackagedTask β) : Option β :=
  some (p.run ())

/-- `std::future::get` on a fulfilled shared state. -/
def futureGet {β : Type} (r : Option β) : Option β :=
  r

/-- What the future returned by `push(f, a)` (line 26, line 35) yields
once the queued task has been executed by a worker. -/
def pushFutureValue {α β : Type} (f : α → β) (a : α) : Option β :=
  futureGet (runVoidWrapper (mkPackagedTask (bindArgs f a)))

/-- What the future returned by `push(f, a, b)` yields once the queued
task has been executed by a worker. -/
def pushFutureValue2 {α β γ : Type} (f : α → β → γ) (a : α) (b : β) : Option γ :=
  futureGet (runVoidWrapper (mkPackagedTask (bindArgs2 f a b)))

/-- The default argument of the constructor (line 14):
`std::thread::hardware_concurrency()`, used as-is — the source applies no
minimum-1 clamp, and the standard permits `hardware_concurrency()` to
return 0 when the value is not computable. -/
def defaultThreadCount (hardwareConcurrency : Nat) : Nat :=
  hardwareConcurrency

/-! ## Concrete states used by witnesses and counterexamples -/

/-- A sample task whose body returns the value 3. -/
def tA : Task := { id := 0, body := Outcome.val 3 }

/-- A sample task whose body raises failure 4. -/
def tB : Task := { id := 1, body := Outcome.fail 4 }

/-- A one-worker pool that has been told to stop, with an empty queue:
the worker is at the top of its loop. -/
def sStopRun : PoolState :=
  { tasks := []
    idle := 0
    stop := true
    workers := [Phase.running]
    submitted := []
    execLog := []
    results := fun _ => none }

/-- The state of a one-worker pool (constructed with the indeterminate
idle count happening to be 0) after pushing `tA` then `tB` and the worker
dequeuing `tA`. -/
def runFifo : PoolState :=
  { tasks := [tB]
    idle := 0
    stop := false
    workers := [Phase.executing tA]
    submitted := [tA, tB]
    execLog := [tA]
    results := fun _ => none }

/-- A one-worker pool whose worker is currently executing `tB` (a task
whose body raises a failure). -/
def sExec : PoolState :=
  { tasks := []
    idle := 0
    stop := false
    workers := [Phase.executing tB]
    submitted := [tB]
    execLog := [tB]
    results := fun _ => none }

/-- A one-worker pool after a completed shutdown: the stop flag is set and
the worker has exited. -/
def sShut : PoolState :=
  { tasks := []
    idle := 0
    stop := true
    workers := [Phase.done]
    submitted := []
    execLog := []
    results := fun _ => none }

/-- The `join`-relevant state of a freshly constructed one-worker pool:
stop flag false, one joinable thread. -/
def jsFresh : JoinState :=
  { stop := false, threads := [{ joinable := true }] }

/-- The `join`-relevant state after the first `join()` completed: stop
flag true, the thread joined (no longer joinable). -/
def jsJoined : JoinState :=
  { stop := true, threads := [{ joinable := false }] }

/-! ## Helper lemmas -/

/-- If updating position `j` of a worker list makes position `i` read as
`done` although it did not read as `done` before, the written phase is
`done`. -/
theorem phase_of_set_done {ws : List Phase} {i j : Nat} {ph : Phase}
    (hlt : j < ws.length)
    (hbefore : ws[i]? ≠ some Phase.done)
    (hafter : (ws.set j ph)[i]? = some Phase.done) : ph = Phase.done := by
  by_cases hij : j = i
  · subst hij
    rw [List.getElem?_set_self hlt] at hafter
    exact Option.some.inj hafter
  · rw [List.getElem?_set_ne hij] at hafter
    exact absurd hafter hbefore

/-- The ghost bookkeeping `execLog ++ tasks = submitted` is preserved by
every interleaving step: tasks enter the queue only at the back (`push`)
and leave it only from the front, into the execution log. -/
theorem fifo_invariant_step {b c : PoolState} (hstep : Step b c)
    (ih : b.execLog ++ b.tasks = b.submitted) :
    c.execLog ++ c.tasks = c.submitted := by
  cases hstep with
  | push t =>
      show b.execLog ++ (b.tasks ++ [t]) = b.submitted ++ [t]
      rw [← List.append_assoc, ih]
  | setStop => exact ih
  | goIdle i hw hq hs => exact ih
  | exitNow i hw hs hq => exact ih
  | takeNow i t rest hw hq =>
      show (b.execLog ++ [t]) ++ rest = b.submitted
      rw [List.append_assoc, List.singleton_append, ← hq]
      exact ih
  | wakeExit i hw hs hq => exact ih
  | wakeTake i t rest hw hq =>
      show (b.execLog ++ [t]) ++ rest = b.submitted
      rw [List.append_assoc, List.singleton_append, ← hq]
      exact ih
  | finish i t hw => exact ih

/-- The FIFO bookkeeping holds at the end of any sequence of steps whose
start satisfies it. -/
theorem fifo_invariant_reach {a s : PoolState} (h : Reach a s)
    (ha : a.execLog ++ a.tasks = a.submitted) :
    s.execLog ++ s.tasks = s.submitted := by
  induction h with
  | refl => exact ha
  | tail hr hstep ih => exact fifo_invariant_step hstep ih

/-- Once every worker has exited, one further step keeps every worker
exited and can only append to the task queue (no step of a dead pool
dequeues). -/
theorem allDone_step {b c : PoolState} (hstep : Step b c)
    (hd : AllDone b.workers) :
    AllDone c.workers ∧ ∃ u, c.tasks = b.tasks ++ u := by
  cases hstep with
  | push t => exact ⟨hd, [t], rfl⟩
  | setStop => exact ⟨hd, [], (List.append_nil _).symm⟩
  | goIdle i hw hq hs => exact Phase.noConfusion (hd _ (List.getElem?_mem hw))
  | exitNow i hw hs hq => exact Phase.noConfusion (hd _ (List.getElem?_mem hw))
  | takeNow i t rest hw hq => exact Phase.noConfusion (hd _ (List.getElem?_mem hw))
  | wakeExit i hw hs hq => exact Phase.noConfusion (hd _ (List.getElem?_mem hw))
  | wakeTake i t rest hw hq => exact Phase.noConfusion (hd _ (List.getElem?_mem hw))
  | finish i t hw => exact Phase.noConfusion (hd _ (List.getElem?_mem hw))

/-- Characterization of the join loop (lines 43-45): it succeeds — making
every thread non-joinable — exactly when every thread was joinable, and
otherwise propagates `std::system_error` from the first non-joinable
thread. -/
theorem joinAllThreads_eq : (l : List OSThread) →
    joinAllThreads l =
      if ∀ t ∈ l, t.joinable = true then
        Except.ok (List.replicate l.length { joinable := false })
      else Except.error "std::system_error: invalid_argument"
  | [] => by
      rw [if_pos (by intro t ht; cases ht)]
      rfl
  | ⟨false⟩ :: l => by
      have hc : ¬ ∀ t ∈ ({ joinable := false } : OSThread) :: l, t.joinable = true := by
        intro hc
        exact absurd (hc _ (List.mem_cons_self _ _)) (by decide)
      rw [if_neg hc]
      rfl
  | ⟨true⟩ :: l => by
      show (match joinAllThreads l with
            | Except.error e => Except.error e
            | Except.ok ts' => Except.ok (OSThread.mk false :: ts')) =
          if ∀ t ∈ OSThread.mk true :: l, t.joinable = true then
            Except.ok (List.replicate (OSThread.mk true :: l).length (OSThread.mk false))
          else Except.error "std::system_error: invalid_argument"
      rw [joinAllThreads_eq l]
      by_cases hall : ∀ t ∈ l, t.joinable = true
      · have hc : ∀ t ∈ OSThread.mk true :: l, t.joinable = true := by
          intro t ht
          rcases List.mem_cons.mp ht with h1 | h1
          · subst h1; rfl
          · exact hall t h1
        rw [if_pos hall, if_pos hc]
        rfl
      · have hc : ¬ ∀ t ∈ OSThread.mk true :: l, t.joinable = true := by
          intro hc
          exact hall fun t ht => hc t (List.mem_cons_of_mem _ ht)
        rw [if_neg hall, if_neg hc]

/-! ## Claim theorems -/

/-- C1 (code bug): because `m_idle_count` is never initialized (line 86,
and the constructor never assigns it), `wait()` can return while a worker
is mid-execution.  Witnessed trace: a one-worker pool whose indeterminate
initial idle count happens to be 1; after one `push` the worker dequeues
the task and is executing it, the queue is empty, and the idle count
(still 1, equal to the worker count) makes the `wait()` predicate
(line 53) true — so `wait()` returns although the task's outcome is
unset. -/
theorem wait_returns_while_worker_executing :
    ∃ s : PoolState, Reach (initState 1 1) s ∧ waitReturns s ∧
      s.workers[0]? = some (Phase.executing tA) := by
  refine ⟨_, Reach.tail (Reach.tail (Reach.refl _) (Step.push _ tA))
      (Step.takeNow _ 0 tA [] rfl rfl), ⟨rfl, rfl⟩, rfl⟩

/-- C2: a worker reaches its terminal state in a step only if, at that
step, the stop flag is set and the task queue is empty (lines 69-71): once
stopped, workers still drain every queued task and never exit while the
queue is non-empty. -/
theorem worker_exits_only_stopped_and_empty (s s' : PoolState) (i : Nat)
    (hstep : Step s s')
    (hbefore : s.workers[i]? ≠ some Phase.done)
    (hafter : s'.workers[i]? = some Phase.done) :
    s.stop = true ∧ s.tasks = [] := by
  cases hstep with
  | push t => exact absurd hafter hbefore
  | setStop => exact absurd hafter hbefore
  | goIdle j hw hq hs =>
      have hlt : j < s.workers.length := (List.getElem?_eq_some.mp hw).1
      exact Phase.noConfusion (phase_of_set_done hlt hbefore hafter)
  | exitNow j hw hs hq => exact ⟨hs, hq⟩
  | takeNow j t rest hw hq =>
      have hlt : j < s.workers.length := (List.getElem?_eq_some.mp hw).1
      exact Phase.noConfusion (phase_of_set_done hlt hbefore hafter)
  | wakeExit j hw hs hq => exact ⟨hs, hq⟩
  | wakeTake j t rest hw hq =>
      have hlt : j < s.workers.length := (List.getElem?_eq_some.mp hw).1
      exact Phase.noConfusion (phase_of_set_done hlt hbefore hafter)
  | finish j t hw =>
      have hlt : j < s.workers.length := (List.getElem?_eq_some.mp hw).1
      exact Phase.noConfusion (phase_of_set_done hlt hbefore hafter)

/-- Witness for C2: a one-worker pool with the stop flag set and an empty
queue, whose worker exits in one step. -/
theorem worker_exits_only_stopped_and_empty_w :
    sStopRun.stop = true ∧ sStopRun.tasks = [] :=
  worker_exits_only_stopped_and_empty sStopRun
    { sStopRun with workers := sStopRun.workers.set 0 Phase.done } 0
    (Step.exitNow sStopRun 0 rfl rfl rfl) (by decide) rfl

/-- C3: strict FIFO — in every execution of the pool, the tasks dequeued
so far, in dequeue order, followed by the still-queued tasks, are exactly
the submitted tasks in submission order (`push` appends at the back,
line 32; workers pop the front, lines 74-75).  In particular, with one
worker the execution order of T1..Tk equals their submission order. -/
theorem fifo_dequeue_order (n idle0 : Nat) (s : PoolState)
    (h : Reach (initState n idle0) s) :
    s.execLog ++ s.tasks = s.submitted :=
  fifo_invariant_reach h rfl

/-- Witness for C3: a trace of a one-worker pool that pushed `tA` then
`tB` and whose worker dequeued `tA`. -/
theorem fifo_dequeue_order_w : runFifo.execLog ++ runFifo.tasks = runFifo.submitted :=
  fifo_dequeue_order 1 0 runFifo
    (Reach.tail (Reach.tail (Reach.tail (Reach.refl _) (Step.push _ tA))
      (Step.push _ tB)) (Step.takeNow _ 0 tA [tB] rfl rfl))

/-- C4: when a worker finishes a task (line 78), the task's outcome —
value or raised failure alike — is stored into that task's result handle,
and the worker is back at the top of its loop (the failure never
terminates the worker: the `finish` step applies to every outcome,
including `Outcome.fail`). -/
theorem task_outcome_propagated (s : PoolState) (i : Nat) (t : Task)
    (hw : s.workers[i]? = some (Phase.executing t)) :
    Step s (finishTask s i t) ∧
      (finishTask s i t).results t.id = some t.body ∧
      (finishTask s i t).workers[i]? = some Phase.running := by
  have hlt : i < s.workers.length := (List.getElem?_eq_some.mp hw).1
  refine ⟨Step.finish s i t hw, ?_, ?_⟩
  · show (if t.id = t.id then some t.body else s.results t.id) = some t.body
    simp
  · show (s.workers.set i Phase.running)[i]? = some Phase.running
    exact List.getElem?_set_self hlt

/-- Witness for C4: the worker executing `tB` — a task whose body raises
failure 4 — finishes: the failure lands in the handle and the worker
continues. -/
theorem task_outcome_propagated_w :
    Step sExec (finishTask sExec 0 tB) ∧
      (finishTask sExec 0 tB).results tB.id = some tB.body ∧
      (finishTask sExec 0 tB).workers[0]? = some Phase.running :=
  task_outcome_propagated sExec 0 tB rfl

/-- C5 (code bug): the idle-accounting invariant does not hold from
construction onward: `m_idle_count` is never initialized (line 86, and
lines 14-19 never assign it), so immediately after constructing a pool
with 2 workers whose indeterminate idle count happens to be 3, the idle
count strictly exceeds the worker count, violating
`idleCounter ≤ workerCount`. -/
theorem idle_invariant_fails_at_construction :
    (initState 2 3).workers.length < (initState 2 3).idle := by decide

/-- C6 (code bug): the constructor does allocate exactly N workers and
leaves the stop flag false, but it does not establish `IdleCounter == 0`:
`m_idle_count` is left at its indeterminate value — here 5, not 0. -/
theorem construction_leaves_idle_uninitialized :
    (initState 2 5).workers.length = 2 ∧ (initState 2 5).stop = false ∧
      (initState 2 5).idle = 5 := by decide

/-- Counterexample to C7: `join()` is not idempotent.  On a one-worker
pool, the first `join()` returns normally, but the second calls
`std::thread::join` on the already-joined thread (lines 43-45), which
throws `std::system_error` instead of returning normally. -/
theorem second_join_raises :
    poolJoin jsFresh = Except.ok jsJoined ∧
      poolJoin jsJoined = Except.error "std::system_error: invalid_argument" :=
  ⟨rfl, rfl⟩

/-- C7 as amended: a second `join()` after a completed first call does
observe the stop flag already true, but — whenever the pool has at least
one thread — it raises `std::system_error` from joining an already-joined
thread rather than returning normally. -/
theorem join_not_idempotent (st st' : JoinState)
    (h1 : poolJoin st = Except.ok st') (hne : st'.threads ≠ []) :
    st'.stop = true ∧
      poolJoin st' = Except.error "std::system_error: invalid_argument" := by
  simp only [poolJoin] at h1
  rw [joinAllThreads_eq] at h1
  by_cases hall : ∀ t ∈ st.threads, t.joinable = true
  · rw [if_pos hall] at h1
    have h2 := Except.ok.inj h1
    subst h2
    refine ⟨rfl, ?_⟩
    have hn : st.threads.length ≠ 0 := by
      intro h0
      apply hne
      show List.replicate st.threads.length (OSThread.mk false) = []
      rw [h0, List.replicate_zero]
    have hc : ¬ ∀ t ∈ List.replicate st.threads.length (OSThread.mk false),
        t.joinable = true := by
      intro hc
      exact absurd (hc _ (List.mem_replicate.mpr ⟨hn, rfl⟩)) (by decide)
    simp only [poolJoin]
    rw [joinAllThreads_eq, if_neg hc]
  · rw [if_neg hall] at h1
    exact Except.noConfusion h1

/-- Witness for C7's amended statement: the concrete one-worker pool. -/
theorem join_not_idempotent_w :
    jsJoined.stop = true ∧
      poolJoin jsJoined = Except.error "std::system_error: invalid_argument" :=
  join_not_idempotent jsFresh jsJoined rfl (by decide)

/-- Counterexample to C8: `push` after a completed shutdown does not fail
with any `PoolClosed` error — `ThreadPool::push` (lines 31-35) never
consults `m_stop` — it simply appends the task to the queue of a pool
whose only worker has already exited. -/
theorem push_after_shutdown_accepted :
    (pushTask sShut tA).tasks = [tA] ∧ (pushTask sShut tA).stop = true :=
  ⟨rfl, rfl⟩

/-- C8 as amended: submission after shutdown is silently accepted, and the
task is never executed: once every worker has exited, every further step
leaves all workers exited and only ever appends to the task queue — the
queued tasks can never be dequeued. -/
theorem push_after_shutdown_never_runs (s s' : PoolState)
    (h : Reach s s') (hd : AllDone s.workers) :
    AllDone s'.workers ∧ ∃ u, s'.tasks = s.tasks ++ u := by
  induction h with
  | refl => exact ⟨hd, [], (List.append_nil _).symm⟩
  | tail hr hstep ih =>
    obtain ⟨hdone, u, hu⟩ := ih
    obtain ⟨hdone', v, hv⟩ := allDone_step hstep hdone
    exact ⟨hdone', u ++ v, by rw [hv, hu, List.append_assoc]⟩

/-- Witness for C8's amended statement: two tasks pushed into the
shut-down pool remain queued. -/
theorem push_after_shutdown_never_runs_w :
    AllDone (pushTask (pushTask sShut tA) tB).workers ∧
      ∃ u, (pushTask (pushTask sShut tA) tB).tasks = sShut.tasks ++ u :=
  push_after_shutdown_never_runs sShut (pushTask (pushTask sShut tA) tB)
    (Reach.tail (Reach.tail (Reach.refl _) (Step.push _ tA)) (Step.push _ tB))
    (by decide)

/-- Counterexample to C9: a constructed pool need not have a worker.  The
default argument is `std::thread::hardware_concurrency()` unclamped
(line 14), which the standard allows to be 0 — and then the constructor's
loop spawns no worker at all. -/
theorem pool_with_zero_workers :
    (initState (defaultThreadCount 0) 0).workers.length < 1 := by decide

/-- C9 as amended: the worker-set size equals the requested count exactly
— the default being the raw `hardware_concurrency()` value — with no
minimum-1 clamp, so it is ≥ 1 only when that count is. -/
theorem worker_count_unclamped (hc idle0 : Nat) :
    (initState (defaultThreadCount hc) idle0).workers.length = defaultThreadCount hc := by
  simp [initState, defaultThreadCount]

/-- C10: `push(f, args...)` binds the arguments itself, at submission time
(line 24), and the returned future, once the queued task has been run by a
worker (lines 30, 78), yields exactly `f(args...)` — shown for unary and
binary callables. -/
theorem push_binds_arguments {α β γ : Type} (f : α → β) (a : α)
    (g : α → β → γ) (b : β) :
    pushFutureValue f a = some (f a) ∧ pushFutureValue2 g a b = some (g a b) :=
  ⟨rfl, rfl⟩

end ThreadPoolModel
